import Mathlib

/-!
Shallow embedding of the sst state container (src/sst.js) and proofs about
its construction, argument binding, reconciliation and middleware chain.
-/

namespace SST

/-- JS values as used by the store: the absent sentinel (undefined), null,
booleans, numbers (modelled as Nat), strings, arrays, plain objects
(association lists of own enumerable string keys, in insertion order), and
promise objects that will eventually resolve to a value. Function values do
not occur inside `Val`; callables returned by user transforms are carried by
`Res.thunk` below. -/
inductive Val where
  | undef
  | vNull
  | vBool (b : Bool)
  | vNat (n : Nat)
  | vStr (s : String)
  | vList (xs : List Val)
  | vObj (fields : List (String × Val))
  | vPromise (v : Val)
deriving Repr

/-- Result of applying a user transform function: either a plain JS value
(`rv`, which covers undefined, null, promises, objects, ...) or a callable
(a higher-order thunk). The JS thunk receives the store as its sole
argument and may read state and issue further transform calls; in this
state-passing embedding it is a function from the current root snapshot to
the pair (snapshot after its internal calls, its own return value). -/
inductive Res where
  | rv (v : Val)
  | thunk (f : Val → Val × Val)

/-- A value in the definitions tree: a JS function (root transform, slice
transform, selector or initialState, of type argument-list to result) or a
nested slice-definition object. -/
inductive DefVal where
  | fn (f : List Val → Res)
  | obj (entries : List (String × DefVal))

/-- First-match lookup of a key in an object field list; absent keys read
as the undefined sentinel, as in JS property access. -/
def getFieldL : List (String × Val) → String → Val
  | [], _ => Val.undef
  | (k, v) :: rest, key => if k = key then v else getFieldL rest key

/-- JS property read `s[key]`: field lookup on objects; property reads on
the primitives modelled here yield undefined. -/
def getField : Val → String → Val
  | Val.vObj fields, key => getFieldL fields key
  | _, _ => Val.undef

/-- `Object.assign({}, s)`: the own enumerable fields of an object; a
non-object source contributes no fields to the fresh target. -/
def assignCopy : Val → List (String × Val)
  | Val.vObj fields => fields
  | _ => []

/-- JS property write `o[key] = v` on an object field list: replaces the
first binding of the key in place, or appends the key when absent. -/
def assocSet : List (String × Val) → String → Val → List (String × Val)
  | [], key, v => [(key, v)]
  | (k, w) :: rest, key, v =>
      if k = key then (k, v) :: rest else (k, w) :: assocSet rest key v

/-- `result && typeof result.then === 'function'`: the promise-likeness
test of leafMiddleware. Promise objects are the only thenable (and truthy)
values in this model. -/
def isPromiseLike : Val → Bool
  | Val.vPromise _ => true
  | _ => false

/-- One argument as seen by `Array.prototype.concat`: an array argument is
spread one level, anything else is appended as a single element. -/
def spreadOne : Val → List Val
  | Val.vList xs => xs
  | v => [v]

/-- `Array.prototype.concat.apply(base, args)`: base followed by each call
argument, with array-valued arguments flattened one level by concat. -/
def concatApply (base : List Val) (args : List Val) : List Val :=
  base ++ (args.map spreadOne).flatten

/-- nextArgs(store, stateProp, args) from src/sst.js: resolves the current
slice state (the whole root snapshot when stateProp is empty, otherwise the
named field of the current root snapshot) and prepends it to the call
arguments via `Array.prototype.concat.apply([state], args)`. The store is
represented by its current root snapshot `s`. -/
def nextArgs (s : Val) (stateProp : String) (args : List Val) : List Val :=
  let state := if stateProp = "" then s else getField s stateProp
  concatApply [state] args

/-- consumeResult(result) from leafMiddleware, given the current root
snapshot `s`: when stateProp is empty the result replaces the snapshot
wholesale via setState; otherwise a shallow copy of the current snapshot is
made with only the stateProp field replaced. Returns the pair (snapshot
after setState, the value consumeResult returns, which is the result). -/
def consumeResult (stateProp : String) (result : Val) (s : Val) : Val × Val :=
  if stateProp = "" then (result, result)
  else (Val.vObj (assocSet (assignCopy s) stateProp result), result)

/-- The invocation context built by buildAction: slice identifier (empty
string means root), action name, the raw user definition value, and the
call arguments. The store reference of the JS context is represented by
threading the root snapshot explicitly. -/
structure Ctx where
  stateProp : String
  actionName : String
  action : DefVal
  args : List Val

/-- The error leafMiddleware throws when a non-higher-order transform
returns undefined. -/
def undefinedResultMsg : String :=
  "An action returned an undefined state. Actions should return a valid state or null."

/-- Outcome of one traversal of the middleware chain, with the store state
threaded explicitly: `ret s v` means the call returned value `v` with root
snapshot `s`; `deferred s v` means the call returned a pending promise
(which will later resolve to `v` and commit it) while the snapshot is still
`s`; `thrown msg s` means the call threw, leaving snapshot `s`. -/
inductive Outcome where
  | ret (s : Val) (v : Val)
  | deferred (s : Val) (v : Val)
  | thrown (msg : String) (s : Val)
deriving Repr

/-- leafMiddleware(context) from src/sst.js, the chain terminus. Resolves
arguments via nextArgs, applies the user function, then classifies the raw
result in source order: callable results are invoked with the store and
their return value is returned; an undefined result throws; a promise-like
result is returned as a deferred handle (its commit happens at resolution,
see `consumeResult`); any other value is committed via consumeResult, whose
return value is discarded, so the synchronous branch falls off the end of
the function and returns undefined. -/
def leafMiddleware (context : Ctx) (s : Val) : Outcome :=
  let args := nextArgs s context.stateProp context.args
  match context.action with
  | DefVal.obj _ => Outcome.thrown "TypeError: context.action is not a function" s
  | DefVal.fn f =>
    match f args with
    | Res.thunk g =>
        let p := g s
        Outcome.ret p.1 p.2
    | Res.rv result =>
        match result with
        | Val.undef => Outcome.thrown undefinedResultMsg s
        | Val.vPromise v => Outcome.deferred s v
        | _ => Outcome.ret (consumeResult context.stateProp result s).1 Val.undef

/-- Resolution step of the deferred branch: when the promise returned by
the transform settles with value `v` and the root snapshot current at that
moment is `s`, `result.then(consumeResult)` runs consumeResult on `v`
against that snapshot; the handle resolves to the value consumeResult
returns. Gives (snapshot after the commit, resolution value of the handle). -/
def resolvePending (stateProp : String) (v : Val) (s : Val) : Val × Val :=
  consumeResult stateProp v s

/-- A middleware in the source is a function of (context, next); the result
type is abstract so the same composition can be studied under the plain and
the trace-instrumented semantics. -/
def Middleware (M : Type) : Type := Ctx → (Ctx → M) → M

/-- makeMiddleware(fn, next) from src/sst.js. -/
def makeMiddleware {M : Type} (fn : Middleware M) (next : Ctx → M) : Ctx → M :=
  fun context => fn context next

/-- buildMiddleware(middlewares) from src/sst.js: starting from the leaf
terminus, the loop runs i from the end of the list down to 0, wrapping the
accumulated chain with makeMiddleware(middlewares[i], chain); this is a
right fold with the terminus as the initial accumulator, so the first
middleware of the list ends up outermost. In the source the terminus is
fixed to leafMiddleware; it is a parameter here so the chain can also be
instantiated with the trace-instrumented terminus. -/
def buildMiddleware {M : Type} (leaf : Ctx → M) (middlewares : List (Middleware M)) :
    Ctx → M :=
  middlewares.foldr makeMiddleware leaf

/-- The chain built for a store constructed with no middleware list: the
composition of the empty list, which is the bare leaf terminus. -/
def applyDefault : Ctx → Val → Outcome :=
  buildMiddleware leafMiddleware []

/-! ## Trace-instrumented middleware semantics

To state the execution-order property of the chain, a second result type
threads the root snapshot and additionally records a trace of events in the
order in which they are executed. -/

/-- Events of an instrumented run: a tag emitted before the proceed call of
a middleware, the run of the user transform at the terminus, and a tag
emitted after the proceed call returns. -/
inductive Event where
  | before (i : Nat)
  | run
  | after (i : Nat)
deriving Repr, DecidableEq

/-- Result type of the trace semantics: a function of the current snapshot
giving the outcome together with the events in execution order. -/
def TraceM : Type := Val → Outcome × List Event

/-- The chain terminus under the trace semantics: runs leafMiddleware (the
reconciler, which invokes the user transform) and records that run. -/
def leafTraced (context : Ctx) : TraceM :=
  fun s => (leafMiddleware context s, [Event.run])

/-- A middleware with code both before and after its proceed call: it
emits its before tag, delegates to the next link with the context, and
emits its after tag once the inner call has returned, passing the inner
result through. -/
def tagMW (i : Nat) : Middleware TraceM :=
  fun context next => fun s =>
    let p := next context s
    (p.1, Event.before i :: p.2 ++ [Event.after i])

/-! ## Store construction (sst, initializeStore, buildNested, buildAction) -/

/-- key[0] === c: whether the first character of a key is the given
marker character (false for the empty key, whose key[0] is undefined). -/
def headCharIs (c : Char) (s : String) : Bool :=
  match s.data with
  | [] => false
  | c0 :: _ => c0 = c

/-- assertValidProp(prop) from src/sst.js: a property matching the
reserved pattern (a leading underscore) throws. -/
def assertValidProp (prop : String) : Except String Unit :=
  if headCharIs '_' prop then
    Except.error ("Invalid property " ++ prop ++ ". Properties cannot start with _")
  else Except.ok ()

/-- The data captured by the closure buildAction returns: the slice
identifier, the action name, and the raw definition value. Calling the
closure enters the middleware chain with this data as the context (see
`callBound`). buildAction runs assertValidProp on the action name at
construction time; that check is performed by the construction functions
below before a BoundAction is produced. -/
structure BoundAction where
  stateProp : String
  actionName : String
  action : DefVal

/-- The data captured by the closure buildSelector returns: slice
identifier, selector name and the raw definition value. -/
structure BoundSelector where
  stateProp : String
  actionName : String
  selector : DefVal

/-- Invoking a bound transform of a store built with no middlewares: the
closure from buildAction enters applyMiddleware with the invocation
context. -/
def callBound (b : BoundAction) (args : List Val) (s : Val) : Outcome :=
  applyDefault ⟨b.stateProp, b.actionName, b.action, args⟩ s

/-- buildNested(store, stateProp, definition, applyMiddleware) from
src/sst.js: splits the slice-definition keys into selector entries (keys
beginning with the selector marker, not name-checked) and transform entries
(everything else, including initialState, each passed through buildAction,
which asserts the name does not begin with the reserved prefix). Returns
(transform entries, selector entries) in definition order. -/
def buildNested (stateProp : String) :
    List (String × DefVal) →
    Except String (List (String × BoundAction) × List (String × BoundSelector))
  | [] => Except.ok ([], [])
  | (key, d) :: rest =>
    if headCharIs '$' key then do
      let p ← buildNested stateProp rest
      Except.ok (p.1, (key, ⟨stateProp, key, d⟩) :: p.2)
    else do
      let _ ← assertValidProp key
      let p ← buildNested stateProp rest
      Except.ok ((key, ⟨stateProp, key, d⟩) :: p.1, p.2)

/-- A node of the store transform tree: a root-level bound transform, or a
slice holding its map of bound transforms. -/
inductive TNode where
  | act (a : BoundAction)
  | sub (entries : List (String × BoundAction))

/-- The observable result of store construction: the root snapshot held by
the container together with the transform tree and the selector tree
(slice selectors only: the root selector branch of initializeStore never
completes, see `initStore`). -/
structure BuiltStore where
  state : Val
  transform : List (String × TNode)
  selector : List (String × List (String × BoundSelector))

/-- The failure raised by the root selector branch of initializeStore: the
source assigns to store.$selectors[key], but the store object defines only
$transform and $selector, so store.$selectors is undefined and the
assignment throws a TypeError. -/
def selectorsCrashMsg : String :=
  "TypeError: cannot set properties of undefined (store.$selectors)"

/-- Property read on a definitions object: first binding of the key among
its entries, none when absent. -/
def lookupDef : List (String × DefVal) → String → Option DefVal
  | [], _ => none
  | (k, d) :: rest, key => if k = key then some d else lookupDef rest key

/-- The slice-initialisation call definition.initialState(root.state[key]):
looks up initialState among the slice entries and applies it directly (not
through the middleware chain) to the corresponding default fragment. A
missing or non-function initialState throws a TypeError, as the call target
is not callable. A callable return value cannot be stored in `Val` and is
outside the modelled fragment. -/
def callInitialState (entries : List (String × DefVal)) (fragment : Val) :
    Except String Val :=
  match lookupDef entries "initialState" with
  | some (DefVal.fn g) =>
    match g [fragment] with
    | Res.rv v => Except.ok v
    | Res.thunk _ => Except.error "unmodelled: initialState returned a function value"
  | _ => Except.error "TypeError: definition.initialState is not a function"

/-- JS property write root.state[key] = v on the root snapshot (always an
object after the Object.assign copy made by sst). -/
def setRoot (s : Val) (key : String) (v : Val) : Val :=
  match s with
  | Val.vObj fields => Val.vObj (assocSet fields key v)
  | other => other

/-- initializeStore(store, root, definitions, applyMiddleware) from
src/sst.js, iterating the definition entries in order and threading the
root snapshot: a key beginning with the selector marker takes the root
selector branch, which throws (see `selectorsCrashMsg`); a function value
becomes a root-level bound transform (buildAction checks its name); any
other value is a slice definition: its nested trees are built, then
root.state[key] is replaced by definition.initialState(root.state[key]). -/
def initStore (s : Val) :
    List (String × DefVal) → Except String BuiltStore
  | [] => Except.ok ⟨s, [], []⟩
  | (key, d) :: rest =>
    if headCharIs '$' key then Except.error selectorsCrashMsg
    else
      match d with
      | DefVal.fn f => do
        let _ ← assertValidProp key
        let st ← initStore s rest
        Except.ok { st with
          transform := (key, TNode.act ⟨"", key, DefVal.fn f⟩) :: st.transform }
      | DefVal.obj entries => do
        let built ← buildNested key entries
        let v ← callInitialState entries (getField s key)
        let st ← initStore (setRoot s key v) rest
        Except.ok { st with
          transform := (key, TNode.sub built.1) :: st.transform,
          selector := (key, built.2) :: st.selector }

/-- sst(defaults, definitions, middlewares) from src/sst.js, for a store
with no middlewares: the root snapshot starts as Object.assign({},
defaults), then initializeStore installs slice initial state and the
transform and selector trees. -/
def sst (defaults : Val) (definitions : List (String × DefVal)) :
    Except String BuiltStore :=
  initStore (Val.vObj (assignCopy defaults)) definitions

/-- Projection of a construction result onto the state the container would
report through getState() immediately after construction. -/
def stateOf : Except String BuiltStore → Except String Val
  | Except.ok st => Except.ok st.state
  | Except.error e => Except.error e

/-- Whether construction succeeded and returned a store. -/
def constructionOk : Except String BuiltStore → Bool
  | Except.ok _ => true
  | Except.error _ => false

/-! ## Helper lemmas about field lookup and the shallow-copy write -/

theorem getFieldL_assocSet_self (fs : List (String × Val)) (k : String) (v : Val) :
    getFieldL (assocSet fs k v) k = v := by
  induction fs with
  | nil => simp [assocSet, getFieldL]
  | cons hd tl ih =>
    obtain ⟨k0, w⟩ := hd
    by_cases hk : k0 = k
    · simp [assocSet, hk, getFieldL]
    · simp [assocSet, hk, getFieldL, ih]

theorem getFieldL_assocSet_other (fs : List (String × Val)) (k k' : String) (v : Val)
    (h : k' ≠ k) : getFieldL (assocSet fs k v) k' = getFieldL fs k' := by
  induction fs with
  | nil =>
    have hne : k ≠ k' := fun hh => h hh.symm
    simp [assocSet, getFieldL, hne]
  | cons hd tl ih =>
    obtain ⟨k0, w⟩ := hd
    by_cases hk : k0 = k
    · subst hk
      have hne : k0 ≠ k' := fun hh => h hh.symm
      simp [assocSet, getFieldL, hne]
    · simp [assocSet, hk, getFieldL, ih]

theorem getFieldL_assignCopy (s : Val) (k : String) :
    getFieldL (assignCopy s) k = getField s k := by
  cases s <;> rfl

/-- A slice commit writes the slice field. -/
theorem consumeResult_self (sp : String) (v s : Val) (hsp : sp ≠ "") :
    getField (consumeResult sp v s).1 sp = v := by
  simp [consumeResult, hsp, getField, getFieldL_assocSet_self]

/-- A slice commit leaves every other field of the snapshot it is applied
to unchanged. -/
theorem consumeResult_other (sp : String) (v s : Val) (k : String)
    (hsp : sp ≠ "") (hk : k ≠ sp) :
    getField (consumeResult sp v s).1 k = getField s k := by
  simp [consumeResult, hsp, getField, getFieldL_assocSet_other _ _ _ _ hk,
    getFieldL_assignCopy]

/-- A root commit replaces the snapshot wholesale. -/
theorem consumeResult_root (v s : Val) : (consumeResult "" v s).1 = v := rfl

/-- When the user function yields a plain committable value (not the
undefined sentinel, not promise-like), the reconciler commits it through
consumeResult and the call returns undefined (the synchronous branch of
leafMiddleware discards the consumeResult return value). -/
theorem leafMiddleware_commits (sp an : String) (f : List Val → Res)
    (args : List Val) (s v : Val)
    (h : f (nextArgs s sp args) = Res.rv v)
    (hu : v ≠ Val.undef) (hp : isPromiseLike v = false) :
    leafMiddleware ⟨sp, an, DefVal.fn f, args⟩ s
      = Outcome.ret (consumeResult sp v s).1 Val.undef := by
  cases v <;> simp_all [leafMiddleware, isPromiseLike]

/-! ## Helper lemmas about construction-time name checks -/

/-- A key whose first character is the reserved underscore does not carry
the selector marker. -/
theorem dollar_of_underscore (k : String) (h : headCharIs '_' k = true) :
    headCharIs '$' k = false := by
  simp only [headCharIs] at h ⊢
  cases hd : k.data with
  | nil => simp [hd] at h
  | cons c cs =>
    simp [hd] at h ⊢
    subst h
    decide

/-- Bind on a successful Except computation continues with the value. -/
theorem except_bind_ok {α β : Type} (a : α) (f : α → Except String β) :
    (Except.ok a >>= f) = f a := rfl

/-- Bind on a failed Except computation propagates the failure. -/
theorem except_bind_error {α β : Type} (e : String) (f : α → Except String β) :
    ((Except.error e : Except String α) >>= f) = Except.error e := rfl

/-- buildNested fails whenever some slice-definition key begins with the
reserved underscore: a non-selector key goes through buildAction, whose
assertValidProp throws; a selector key cannot begin with the underscore. -/
theorem buildNested_reserved_error (sp : String) (entries : List (String × DefVal)) :
    (∃ k d, (k, d) ∈ entries ∧ headCharIs '_' k = true) →
    ∃ e, buildNested sp entries = Except.error e := by
  induction entries with
  | nil =>
    intro h
    obtain ⟨k, d, hmem, _⟩ := h
    cases hmem
  | cons hd tl ih =>
    intro h
    obtain ⟨k0, d0⟩ := hd
    obtain ⟨k, d, hmem, hk⟩ := h
    rcases List.mem_cons.mp hmem with hh | ht
    · rw [Prod.mk.injEq] at hh
      obtain ⟨h1, h2⟩ := hh
      subst h1
      have hq : headCharIs '$' k = false := dollar_of_underscore _ hk
      refine ⟨"Invalid property " ++ k ++ ". Properties cannot start with _", ?_⟩
      simp [buildNested, hq, assertValidProp, hk, except_bind_error]
    · obtain ⟨e, he⟩ := ih ⟨k, d, ht, hk⟩
      by_cases hq : headCharIs '$' k0 = true
      · exact ⟨e, by simp [buildNested, hq, he, except_bind_error]⟩
      · by_cases hr : headCharIs '_' k0 = true
        · refine ⟨"Invalid property " ++ k0 ++ ". Properties cannot start with _", ?_⟩
          simp [buildNested, hq, assertValidProp, hr, except_bind_error]
        · exact ⟨e, by
            simp [buildNested, hq, assertValidProp, hr, he, except_bind_ok,
              except_bind_error]⟩

/-- initializeStore fails whenever some root-level function-valued key
begins with the reserved underscore (buildAction checks root transform
names). -/
theorem initStore_fn_reserved_error (s : Val) (defs : List (String × DefVal)) :
    (∃ k f, (k, DefVal.fn f) ∈ defs ∧ headCharIs '_' k = true) →
    ∃ e, initStore s defs = Except.error e := by
  induction defs generalizing s with
  | nil =>
    intro h
    obtain ⟨k, f, hmem, _⟩ := h
    cases hmem
  | cons hd tl ih =>
    intro h
    obtain ⟨k0, d0⟩ := hd
    obtain ⟨k, f, hmem, hk⟩ := h
    by_cases hq : headCharIs '$' k0 = true
    · exact ⟨selectorsCrashMsg, by simp [initStore, hq]⟩
    · rcases List.mem_cons.mp hmem with hh | ht
      · rw [Prod.mk.injEq] at hh
        obtain ⟨h1, h2⟩ := hh
        subst h1
        subst h2
        refine ⟨"Invalid property " ++ k ++ ". Properties cannot start with _", ?_⟩
        simp [initStore, hq, assertValidProp, hk, except_bind_error]
      · cases d0 with
        | fn f0 =>
          by_cases hr : headCharIs '_' k0 = true
          · refine ⟨"Invalid property " ++ k0 ++ ". Properties cannot start with _", ?_⟩
            simp [initStore, hq, assertValidProp, hr, except_bind_error]
          · obtain ⟨e, he⟩ := ih s ⟨k, f, ht, hk⟩
            exact ⟨e, by
              simp [initStore, hq, assertValidProp, hr, he, except_bind_ok,
                except_bind_error]⟩
        | obj entries =>
          cases hb : buildNested k0 entries with
          | error e =>
            exact ⟨e, by simp [initStore, hq, hb, except_bind_error]⟩
          | ok p =>
            cases hc : callInitialState entries (getField s k0) with
            | error e =>
              exact ⟨e, by
                simp [initStore, hq, hb, hc, except_bind_ok, except_bind_error]⟩
            | ok v =>
              obtain ⟨e, he⟩ := ih (setRoot s k0 v) ⟨k, f, ht, hk⟩
              exact ⟨e, by
                simp [initStore, hq, hb, hc, he, except_bind_ok, except_bind_error]⟩

/-- initializeStore fails whenever some key inside a slice definition
begins with the reserved underscore (buildNested checks nested names via
buildAction). -/
theorem initStore_nested_reserved_error (s : Val) (defs : List (String × DefVal)) :
    (∃ sk entries k d, (sk, DefVal.obj entries) ∈ defs ∧ (k, d) ∈ entries
      ∧ headCharIs '_' k = true) →
    ∃ e, initStore s defs = Except.error e := by
  induction defs generalizing s with
  | nil =>
    intro h
    obtain ⟨sk, entries, k, d, hmem, _, _⟩ := h
    cases hmem
  | cons hd tl ih =>
    intro h
    obtain ⟨k0, d0⟩ := hd
    obtain ⟨sk, entries, k, d, hmem, hin, hk⟩ := h
    by_cases hq : headCharIs '$' k0 = true
    · exact ⟨selectorsCrashMsg, by simp [initStore, hq]⟩
    · rcases List.mem_cons.mp hmem with hh | ht
      · rw [Prod.mk.injEq] at hh
        obtain ⟨h1, h2⟩ := hh
        subst h1
        subst h2
        obtain ⟨e, he⟩ := buildNested_reserved_error sk entries ⟨k, d, hin, hk⟩
        exact ⟨e, by simp [initStore, hq, he, except_bind_error]⟩
      · cases d0 with
        | fn f0 =>
          by_cases hr : headCharIs '_' k0 = true
          · refine ⟨"Invalid property " ++ k0 ++ ". Properties cannot start with _", ?_⟩
            simp [initStore, hq, assertValidProp, hr, except_bind_error]
          · obtain ⟨e, he⟩ := ih s ⟨sk, entries, k, d, ht, hin, hk⟩
            exact ⟨e, by
              simp [initStore, hq, assertValidProp, hr, he, except_bind_ok,
                except_bind_error]⟩
        | obj entries0 =>
          cases hb : buildNested k0 entries0 with
          | error e =>
            exact ⟨e, by simp [initStore, hq, hb, except_bind_error]⟩
          | ok p =>
            cases hc : callInitialState entries0 (getField s k0) with
            | error e =>
              exact ⟨e, by
                simp [initStore, hq, hb, hc, except_bind_ok, except_bind_error]⟩
            | ok v =>
              obtain ⟨e, he⟩ := ih (setRoot s k0 v) ⟨sk, entries, k, d, ht, hin, hk⟩
              exact ⟨e, by
                simp [initStore, hq, hb, hc, he, except_bind_ok, except_bind_error]⟩

/-! ## Concrete user functions used in the closed theorems below -/

/-- The transform of the repository test named Returns the resulting
substate of the transform: sayHi returns the string Hi. -/
def sayHiFn : List Val → Res := fun _ => Res.rv (Val.vStr "Hi")

/-- initialState(val) returning the string Hi prepended to the default
fragment, as in the repository test named Uses defaults. -/
def hiInitFn : List Val → Res := fun args =>
  match args with
  | Val.vStr t :: _ => Res.rv (Val.vStr ("Hi " ++ t))
  | _ => Res.rv Val.vNull

/-- An initialState that passes its first argument through. -/
def headDFn : List Val → Res := fun args => Res.rv (args.headD Val.undef)

/-- A root transform returning null. -/
def nullFn : List Val → Res := fun _ => Res.rv Val.vNull

/-- A transform returning the undefined sentinel. -/
def undefFn : List Val → Res := fun _ => Res.rv Val.undef

/-- A transform returning a promise resolving to the string You!, as in
the repository promise tests. -/
def promiseYouFn : List Val → Res := fun _ => Res.rv (Val.vPromise (Val.vStr "You!"))

/-- A higher-order transform whose thunk leaves state alone and returns
the number 42. -/
def thunk42Fn : List Val → Res := fun _ => Res.thunk (fun s => (s, Val.vNat 42))

/-- A transform returning the string Yo!. -/
def sayYoFn : List Val → Res := fun _ => Res.rv (Val.vStr "Yo!")

/-- A transform returning the two-element list of the strings Hi and
there. -/
def listHiThereFn : List Val → Res :=
  fun _ => Res.rv (Val.vList [Val.vStr "Hi", Val.vStr "there"])

/-- buildNested keeps every non-selector slice key, initialState included:
a successful build contains a bound transform for each such key, bound to
the slice and carrying the raw definition value. -/
theorem buildNested_mem (sp : String) (entries : List (String × DefVal)) :
    ∀ (p : List (String × BoundAction) × List (String × BoundSelector))
      (k : String) (d : DefVal),
      buildNested sp entries = Except.ok p → (k, d) ∈ entries →
      headCharIs '$' k = false →
      (k, BoundAction.mk sp k d) ∈ p.1 := by
  induction entries with
  | nil =>
    intro p k d _ hmem _
    cases hmem
  | cons hd tl ih =>
    intro p k d hok hmem hq
    obtain ⟨k0, d0⟩ := hd
    by_cases hq0 : headCharIs '$' k0 = true
    · cases hb : buildNested sp tl with
      | error e => simp [buildNested, hq0, hb, except_bind_error] at hok
      | ok q =>
        simp only [buildNested, hq0, if_true, hb, except_bind_ok,
          Except.ok.injEq] at hok
        rcases List.mem_cons.mp hmem with hh | ht
        · rw [Prod.mk.injEq] at hh
          obtain ⟨h1, _⟩ := hh
          subst h1
          rw [hq0] at hq
          cases hq
        · have := ih q k d hb ht hq
          rw [← hok]
          exact this
    · by_cases hr : headCharIs '_' k0 = true
      · simp [buildNested, hq0, assertValidProp, hr, except_bind_error] at hok
      · cases hb : buildNested sp tl with
        | error e =>
          simp [buildNested, hq0, assertValidProp, hr, hb, except_bind_ok,
            except_bind_error] at hok
        | ok q =>
          simp only [buildNested, hq0, if_false, Bool.false_eq_true,
            assertValidProp, hr, if_neg, hb, except_bind_ok,
            Except.ok.injEq] at hok
          rcases List.mem_cons.mp hmem with hh | ht
          · rw [Prod.mk.injEq] at hh
            obtain ⟨h1, h2⟩ := hh
            subst h1
            subst h2
            rw [← hok]
            exact List.mem_cons_self _ _
          · have := ih q k d hb ht hq
            rw [← hok]
            exact List.mem_cons_of_mem _ this

/-! ## The claims -/

/-- C1: the claim states that a bound transform whose user function
returns a synchronous immediate value evaluates to that value. On the
failing input of the repository test named Returns the resulting substate
of the transform (slice peep, transform sayHi returning the string Hi),
the call through the default chain commits Hi to the slice (the value
getState consumers see) but evaluates to undefined, because the
synchronous branch of leafMiddleware calls consumeResult without returning
its value. -/
theorem C1_sync_call_returns_undefined_not_value :
    callBound ⟨"peep", "sayHi", DefVal.fn sayHiFn⟩ []
        (Val.vObj [("peep", Val.vList [])])
      = Outcome.ret (Val.vObj [("peep", Val.vStr "Hi")]) Val.undef
    ∧ Val.undef ≠ Val.vStr "Hi" :=
  ⟨rfl, fun h => nomatch h⟩

/-- C2: the claim states that construction succeeds for every tree free of
reserved-prefix keys, including trees with root-level selector keys. A
root-level key beginning with the selector marker makes initializeStore
assign to store.$selectors, which the store does not define, so
construction throws a TypeError instead of wrapping a root selector. For a
selector-free tree the rest of the claim holds: getState() right after
construction is the defaults snapshot with the slice field replaced by
initialState applied to the default fragment. -/
theorem C2_root_selector_key_crashes_construction :
    sst (Val.vObj [("hi", Val.vStr "there")])
        [("$foo", DefVal.fn hiInitFn)]
      = Except.error selectorsCrashMsg
    ∧ stateOf (sst (Val.vObj [("hi", Val.vStr "there")])
        [("hi", DefVal.obj [("initialState", DefVal.fn hiInitFn)])])
      = Except.ok (Val.vObj [("hi", Val.vStr "Hi there")]) :=
  ⟨rfl, rfl⟩

/-- C3 (amended): only action keys are name-checked at construction time:
a root-level function-valued key or a key inside a slice definition that
begins with the reserved underscore aborts construction, because those
keys pass through buildAction and assertValidProp; a slice-definition key
itself is never checked (see the counterexample). -/
theorem C3_reserved_prefix_only_action_keys (defaults : Val)
    (defs : List (String × DefVal))
    (h : (∃ k f, (k, DefVal.fn f) ∈ defs ∧ headCharIs '_' k = true)
       ∨ (∃ sk entries k d, (sk, DefVal.obj entries) ∈ defs ∧ (k, d) ∈ entries
            ∧ headCharIs '_' k = true)) :
    ∃ e, sst defaults defs = Except.error e := by
  cases h with
  | inl h1 => exact initStore_fn_reserved_error _ defs h1
  | inr h2 => exact initStore_nested_reserved_error _ defs h2

/-- C3 counterexample: a slice-definition key beginning with the reserved
underscore at the root of the definitions tree does not make construction
fail; the store is built, contradicting the claim as stated. -/
theorem C3_counterexample_slice_key_unchecked :
    constructionOk (sst (Val.vObj [])
      [("_foo", DefVal.obj [("initialState", DefVal.fn headDFn)])]) = true :=
  rfl

/-- C3 witness: a root-level function-valued key beginning with the
reserved underscore aborts construction. -/
theorem C3_witness :
    ∃ e, sst (Val.vObj []) [("_bad", DefVal.fn nullFn)] = Except.error e :=
  C3_reserved_prefix_only_action_keys (Val.vObj []) [("_bad", DefVal.fn nullFn)]
    (Or.inl ⟨"_bad", nullFn, List.mem_cons_self _ _, rfl⟩)

/-- C4: the claim states that the argument binder returns the current
slice state followed by the call arguments unchanged, including list
arguments. On the call of the repository test named Updates initial state
(slice stuffs holding the empty list, single argument the list of the
strings Hi and there), Array.prototype.concat spreads the array argument
one level, so the binder yields the slice state followed by Hi and there
as separate arguments, not the list itself. -/
theorem C4_nextArgs_flattens_array_arguments :
    nextArgs (Val.vObj [("stuffs", Val.vList [])]) "stuffs"
        [Val.vList [Val.vStr "Hi", Val.vStr "there"]]
      = [Val.vList [], Val.vStr "Hi", Val.vStr "there"]
    ∧ nextArgs (Val.vObj [("stuffs", Val.vList [])]) "stuffs"
        [Val.vList [Val.vStr "Hi", Val.vStr "there"]]
      ≠ [Val.vList [], Val.vList [Val.vStr "Hi", Val.vStr "there"]] := by
  refine ⟨rfl, ?_⟩
  simp [nextArgs, concatApply, spreadOne, getField, getFieldL]

/-- C5 (amended): when the user function returns a callable result, the
reconciler invokes it with the store as its sole argument, commits no
state of its own in that branch (the post state is exactly the state the
thunk produces), and the bound-transform call returns the value the thunk
itself returns, rather than undefined. -/
theorem C5_thunk_invoked_no_commit_returns_thunk_value
    (sp an : String) (f : List Val → Res) (args : List Val) (s : Val)
    (g : Val → Val × Val)
    (h : f (nextArgs s sp args) = Res.thunk g) :
    leafMiddleware ⟨sp, an, DefVal.fn f, args⟩ s = Outcome.ret (g s).1 (g s).2 := by
  simp [leafMiddleware, h]

/-- C5 counterexample: a higher-order transform whose thunk returns the
number 42 makes the bound-transform call return 42, not undefined,
because the thunk branch of leafMiddleware returns result(store). -/
theorem C5_counterexample_thunk_result_returned :
    leafMiddleware ⟨"", "doMore", DefVal.fn thunk42Fn, []⟩ (Val.vObj [])
      = Outcome.ret (Val.vObj []) (Val.vNat 42)
    ∧ Val.vNat 42 ≠ Val.undef :=
  ⟨rfl, fun h => nomatch h⟩

/-- C5 witness: the amended statement at a concrete thunk and state. -/
theorem C5_witness :
    leafMiddleware ⟨"", "doMore", DefVal.fn thunk42Fn, [Val.vNull]⟩
        (Val.vObj [("a", Val.vNat 1)])
      = Outcome.ret ((fun s => (s, Val.vNat 42)) (Val.vObj [("a", Val.vNat 1)])).1
          ((fun s => (s, Val.vNat 42)) (Val.vObj [("a", Val.vNat 1)])).2 :=
  C5_thunk_invoked_no_commit_returns_thunk_value "" "doMore" thunk42Fn [Val.vNull]
    (Val.vObj [("a", Val.vNat 1)]) (fun s => (s, Val.vNat 42)) rfl

/-- C6: for a two-element middleware list, the composed chain runs the
first middleware outermost: its before code, then the before code of the
second, then the user transform at the terminus, then the after code of
the second, then the after code of the first; and composition is the
right-to-left fold of makeMiddleware over the list, with each list head
wrapped outermost around the composition of the rest, computed once and
applied unchanged to every invocation context. -/
theorem C6_middleware_order_and_composition :
    (∀ (i j : Nat) (context : Ctx) (s : Val),
        buildMiddleware leafTraced [tagMW i, tagMW j] context s
          = (leafMiddleware context s,
             [Event.before i, Event.before j, Event.run, Event.after j,
              Event.after i]))
    ∧ ∀ (M : Type) (leaf : Ctx → M) (m : Middleware M) (rest : List (Middleware M)),
        buildMiddleware leaf (m :: rest) = makeMiddleware m (buildMiddleware leaf rest) :=
  ⟨fun _ _ _ _ => rfl, fun _ _ _ _ => rfl⟩

/-- C7: a transform returning a promise leaves the snapshot unchanged when
the call returns, handing back a deferred handle for the eventual value;
when the promise later resolves against whatever snapshot is current at
that moment, the root case commits the resolved value wholesale and the
slice case commits a shallow copy of the resolution-time snapshot (not the
dispatch-time one) with only the slice field replaced, while the user
function itself was applied to the dispatch-time snapshot (the
hypothesis fixes its input to nextArgs of the dispatch state). -/
theorem C7_deferred_state_and_resolution_commit
    (sp an : String) (f : List Val → Res) (args : List Val) (s v : Val)
    (h : f (nextArgs s sp args) = Res.rv (Val.vPromise v)) :
    leafMiddleware ⟨sp, an, DefVal.fn f, args⟩ s = Outcome.deferred s v
    ∧ (sp = "" → ∀ s1, (resolvePending sp v s1).1 = v)
    ∧ (sp ≠ "" → ∀ s1,
        getField (resolvePending sp v s1).1 sp = v
        ∧ ∀ k, k ≠ sp → getField (resolvePending sp v s1).1 k = getField s1 k) := by
  refine ⟨by simp [leafMiddleware, h], ?_, ?_⟩
  · intro hsp s1
    subst hsp
    rfl
  · intro hsp s1
    exact ⟨consumeResult_self sp v s1 hsp,
      fun k hk => consumeResult_other sp v s1 k hsp hk⟩

/-- C7 witness: the deferred behaviour at the concrete promise transform
of the repository promise tests. -/
theorem C7_witness :
    leafMiddleware ⟨"hi", "save", DefVal.fn promiseYouFn, []⟩
        (Val.vObj [("hi", Val.vStr "there")])
      = Outcome.deferred (Val.vObj [("hi", Val.vStr "there")]) (Val.vStr "You!")
    ∧ ("hi" = "" → ∀ s1, (resolvePending "hi" (Val.vStr "You!") s1).1 = Val.vStr "You!")
    ∧ ("hi" ≠ "" → ∀ s1,
        getField (resolvePending "hi" (Val.vStr "You!") s1).1 "hi" = Val.vStr "You!"
        ∧ ∀ k, k ≠ "hi" →
            getField (resolvePending "hi" (Val.vStr "You!") s1).1 k = getField s1 k) :=
  C7_deferred_state_and_resolution_commit "hi" "save" promiseYouFn []
    (Val.vObj [("hi", Val.vStr "there")]) (Val.vStr "You!") rfl

/-- C8: a slice transform returning a plain value commits it by shallow
copy: afterwards the slice field of the snapshot is that value and every
other field is unchanged; a root transform returning a plain value
replaces the whole snapshot with it. -/
theorem C8_commit_shallow_copy_frame
    (sp an : String) (f : List Val → Res) (args : List Val) (s v : Val)
    (h : f (nextArgs s sp args) = Res.rv v)
    (hu : v ≠ Val.undef) (hp : isPromiseLike v = false) :
    (sp = "" → leafMiddleware ⟨sp, an, DefVal.fn f, args⟩ s = Outcome.ret v Val.undef)
    ∧ (sp ≠ "" → ∃ s2,
        leafMiddleware ⟨sp, an, DefVal.fn f, args⟩ s = Outcome.ret s2 Val.undef
        ∧ getField s2 sp = v
        ∧ ∀ k, k ≠ sp → getField s2 k = getField s k) := by
  have hc := leafMiddleware_commits sp an f args s v h hu hp
  constructor
  · intro hsp
    subst hsp
    rw [hc, consumeResult_root]
  · intro hsp
    exact ⟨(consumeResult sp v s).1, hc, consumeResult_self sp v s hsp,
      fun k hk => consumeResult_other sp v s k hsp hk⟩

/-- C8 witness: the shallow-copy commit at a concrete two-slice snapshot. -/
theorem C8_witness :
    ("hi" = "" →
      leafMiddleware ⟨"hi", "say", DefVal.fn sayYoFn, []⟩
          (Val.vObj [("hi", Val.vStr "there"), ("n", Val.vNat 5)])
        = Outcome.ret (Val.vStr "Yo!") Val.undef)
    ∧ ("hi" ≠ "" → ∃ s2,
        leafMiddleware ⟨"hi", "say", DefVal.fn sayYoFn, []⟩
            (Val.vObj [("hi", Val.vStr "there"), ("n", Val.vNat 5)])
          = Outcome.ret s2 Val.undef
        ∧ getField s2 "hi" = Val.vStr "Yo!"
        ∧ ∀ k, k ≠ "hi" →
            getField s2 k
              = getField (Val.vObj [("hi", Val.vStr "there"), ("n", Val.vNat 5)]) k) :=
  C8_commit_shallow_copy_frame "hi" "say" sayYoFn []
    (Val.vObj [("hi", Val.vStr "there"), ("n", Val.vNat 5)]) (Val.vStr "Yo!")
    rfl (fun h => nomatch h) rfl

/-- C9: a non-higher-order transform returning the undefined sentinel
throws the undefined-result error synchronously and commits nothing (the
snapshot after the failed call is the snapshot before it); a transform
returning null is not an error: null is committed as the new slice state
(or as the whole snapshot for a root transform). -/
theorem C9_undefined_throws_null_commits
    (sp an : String) (f g : List Val → Res) (args : List Val) (s : Val)
    (hf : f (nextArgs s sp args) = Res.rv Val.undef)
    (hg : g (nextArgs s sp args) = Res.rv Val.vNull) :
    leafMiddleware ⟨sp, an, DefVal.fn f, args⟩ s = Outcome.thrown undefinedResultMsg s
    ∧ leafMiddleware ⟨sp, an, DefVal.fn g, args⟩ s
        = Outcome.ret (consumeResult sp Val.vNull s).1 Val.undef
    ∧ (sp ≠ "" → getField (consumeResult sp Val.vNull s).1 sp = Val.vNull)
    ∧ (sp = "" → (consumeResult sp Val.vNull s).1 = Val.vNull) := by
  refine ⟨by simp [leafMiddleware, hf],
    leafMiddleware_commits sp an g args s Val.vNull hg (fun h => nomatch h) rfl,
    fun hsp => consumeResult_self sp Val.vNull s hsp,
    fun hsp => by subst hsp; rfl⟩

/-- C9 witness: the undefined throw and the null commit at a concrete
slice and snapshot. -/
theorem C9_witness :
    leafMiddleware ⟨"x", "doSomething", DefVal.fn undefFn, []⟩
        (Val.vObj [("x", Val.vNat 3)])
      = Outcome.thrown undefinedResultMsg (Val.vObj [("x", Val.vNat 3)])
    ∧ leafMiddleware ⟨"x", "doSomething", DefVal.fn nullFn, []⟩
        (Val.vObj [("x", Val.vNat 3)])
      = Outcome.ret (consumeResult "x" Val.vNull (Val.vObj [("x", Val.vNat 3)])).1
          Val.undef
    ∧ ("x" ≠ "" →
        getField (consumeResult "x" Val.vNull (Val.vObj [("x", Val.vNat 3)])).1 "x"
          = Val.vNull)
    ∧ ("x" = "" →
        (consumeResult "x" Val.vNull (Val.vObj [("x", Val.vNat 3)])).1 = Val.vNull) :=
  C9_undefined_throws_null_commits "x" "doSomething" undefFn nullFn []
    (Val.vObj [("x", Val.vNat 3)]) rfl rfl

/-- C10: buildNested does not exclude the initialState key, so a built
slice exposes initialState as an ordinary bound transform of that slice;
invoking it through the default middleware chain prepends the current
slice state to the arguments and commits its plain return value as the new
slice state. -/
theorem C10_initialState_bound_as_transform :
    (∀ (sp : String) (entries : List (String × DefVal))
        (p : List (String × BoundAction) × List (String × BoundSelector))
        (d : DefVal),
        buildNested sp entries = Except.ok p → ("initialState", d) ∈ entries →
        ("initialState", BoundAction.mk sp "initialState" d) ∈ p.1)
    ∧ ∀ (sp : String) (g : List Val → Res) (args : List Val) (s v : Val),
        sp ≠ "" → g (nextArgs s sp args) = Res.rv v → v ≠ Val.undef →
        isPromiseLike v = false →
        ∃ s2,
          callBound ⟨sp, "initialState", DefVal.fn g⟩ args s = Outcome.ret s2 Val.undef
          ∧ getField s2 sp = v := by
  constructor
  · intro sp entries p d hok hmem
    exact buildNested_mem sp entries p "initialState" d hok hmem rfl
  · intro sp g args s v hsp hg hu hp
    exact ⟨(consumeResult sp v s).1,
      leafMiddleware_commits sp "initialState" g args s v hg hu hp,
      consumeResult_self sp v s hsp⟩

/-- C10 witness: a one-entry slice definition builds an initialState bound
transform, and calling a slice-bound initialState commits its return
value. -/
theorem C10_witness :
    ("initialState", BoundAction.mk "stuffs" "initialState" (DefVal.fn headDFn))
      ∈ ([("initialState",
            BoundAction.mk "stuffs" "initialState" (DefVal.fn headDFn))] :
          List (String × BoundAction))
    ∧ ∃ s2,
        callBound ⟨"stuffs", "initialState", DefVal.fn listHiThereFn⟩ []
            (Val.vObj [("stuffs", Val.vList [])])
          = Outcome.ret s2 Val.undef
        ∧ getField s2 "stuffs" = Val.vList [Val.vStr "Hi", Val.vStr "there"] :=
  ⟨C10_initialState_bound_as_transform.1 "stuffs"
      [("initialState", DefVal.fn headDFn)]
      ([("initialState", BoundAction.mk "stuffs" "initialState" (DefVal.fn headDFn))],
        []) (DefVal.fn headDFn) rfl (List.mem_cons_self _ _),
    C10_initialState_bound_as_transform.2 "stuffs" listHiThereFn []
      (Val.vObj [("stuffs", Val.vList [])])
      (Val.vList [Val.vStr "Hi", Val.vStr "there"]) (fun h => nomatch h) rfl
      (fun h => nomatch h) rfl⟩

end SST
